import Mathlib

/-!
Verification of the BigDataSmallPrice collector / validation / upsert /
chronological-export pipeline.

Each operation of the repository that a claim touches is shallowly embedded
as an executable Lean definition, faithful to the Python source:

* `src/processing/export_pipeline.py`  — `validate_no_leakage`,
  `split_chronological`, `save_parquet` (artifact naming), `run_export`;
* `src/data_collection/base_collector.py` — `BaseCollector.run`,
  `BaseCollector._validate`, `BaseCollector._fetch_with_retry`;
* `src/data_collection/entsoe_collector.py` — `EntsoeCollector.parse`,
  `_resolution_to_minutes`;
* `src/data_collection/ekz_collector.py` — `EkzCollector.parse`;
* `src/data_collection/bafu_collector.py` — `BafuCollector.parse`;
* `src/data_collection/openmeteo_collector.py` — `OpenMeteoCollector.parse`,
  `_safe_float`;
* `src/db/timescale_client.py` — `_bulk_execute` over the four per-source
  upserts (`ON CONFLICT ... DO NOTHING`).

Python floats that only carry data (prices, measurements) are modelled as `ℚ`;
timestamps as `Int` (epoch minutes or epoch seconds, per collector, as noted
at each definition).  Python exceptions become `Except` values.
-/

namespace BDSP

/-! ## Export pipeline: data model

A row of the `training_features` view.  The export split
(`split_chronological`) is purely index-based; only the `time` column is ever
interpreted, the remaining columns travel as opaque payload. -/

structure FRow where
  time : Int
  vals : List ℚ
deriving DecidableEq, Repr

/-- Errors of the export pipeline (spec taxonomy §7:  `InvalidSplitError`,
`LeakageError`, `EmptyDatasetError`; the Python code raises `ValueError` /
`RuntimeError` at the corresponding places). -/
inductive ExportError where
  | invalidSplit
  | leakage (col : String)
  | emptyDataset
deriving DecidableEq, Repr

/-- Embeds `split_chronological` (export_pipeline.py lines 97–129):

```python
if not (0 < test_ratio < 1):
    raise ValueError(...)
split_idx = int(len(df) * (1 - test_ratio))
if split_idx == 0 or split_idx == len(df):
    raise ValueError(...)
return df.iloc[:split_idx].copy(), df.iloc[split_idx:].copy()
```

`int()` truncates toward zero; on the non-negative value
`len(df) * (1 - test_ratio)` (the ratio guard has already passed, so
`0 < 1 - test_ratio < 1`) truncation is the floor.  Python float arithmetic
is idealised as exact rational arithmetic. -/
def split_chronological (df : List FRow) (test_ratio : ℚ) :
    Except ExportError (List FRow × List FRow) :=
  if ¬ (0 < test_ratio ∧ test_ratio < 1) then
    .error .invalidSplit
  else
    let split_idx : ℕ := (⌊(df.length : ℚ) * (1 - test_ratio)⌋).toNat
    if split_idx = 0 ∨ split_idx = df.length then
      .error .invalidSplit
    else
      .ok (df.take split_idx, df.drop split_idx)

/-- The split index `k = ⌊n·(1-r)⌋` of `split_chronological`. -/
def splitIdx (n : ℕ) (test_ratio : ℚ) : ℕ :=
  (⌊(n : ℚ) * (1 - test_ratio)⌋).toNat

theorem split_chronological_def (df : List FRow) (r : ℚ) :
    split_chronological df r =
      if ¬ (0 < r ∧ r < 1) then .error .invalidSplit
      else if splitIdx df.length r = 0 ∨ splitIdx df.length r = df.length then
        .error .invalidSplit
      else .ok (df.take (splitIdx df.length r), df.drop (splitIdx df.length r)) := rfl

/-- `k ≤ n` whenever `0 < r`: the floor of `n·(1-r)` cannot exceed `n`. -/
theorem splitIdx_le (n : ℕ) (r : ℚ) (hr : 0 < r) : splitIdx n r ≤ n := by
  have hle : (n : ℚ) * (1 - r) ≤ (n : ℚ) := by
    nlinarith [Nat.cast_nonneg (α := ℚ) n]
  have hfloor : ⌊(n : ℚ) * (1 - r)⌋ ≤ (n : ℤ) := by
    calc ⌊(n : ℚ) * (1 - r)⌋ ≤ ⌊(n : ℚ)⌋ := Int.floor_le_floor hle
    _ = (n : ℤ) := Int.floor_natCast n
  unfold splitIdx
  omega

/-- C1.  For a strictly time-ascending DataFrame `df` of `n` rows and any
ratio `r`, with `k = ⌊n·(1-r)⌋`: a successful `split_chronological` returns
`train = df[0:k]` and `test = df[k:n]` in original order, the lengths sum to
`n`, every train timestamp is strictly earlier than every test timestamp, and
the train and test row sets are disjoint; it errors (`InvalidSplitError`)
exactly when `r ∉ (0,1)` or `k = 0` or `k = n`. -/
theorem C1_split_chronological_correct (df : List FRow) (r : ℚ)
    (hsorted : df.Pairwise (fun a b => a.time < b.time)) :
    (∀ train test, split_chronological df r = .ok (train, test) →
      train = df.take (splitIdx df.length r) ∧
      test = df.drop (splitIdx df.length r) ∧
      train.length + test.length = df.length ∧
      (∀ x ∈ train, ∀ y ∈ test, x.time < y.time) ∧
      (∀ x ∈ train, x ∉ test)) ∧
    ((∃ e, split_chronological df r = .error e) ↔
      (¬ (0 < r ∧ r < 1) ∨ splitIdx df.length r = 0 ∨
        splitIdx df.length r = df.length)) := by
  constructor
  · intro train test hok
    rw [split_chronological_def] at hok
    by_cases hr : 0 < r ∧ r < 1
    · rw [if_neg (not_not_intro hr)] at hok
      by_cases hk : splitIdx df.length r = 0 ∨ splitIdx df.length r = df.length
      · rw [if_pos hk] at hok
        exact absurd hok (by simp)
      rw [if_neg hk] at hok
      simp only [Except.ok.injEq, Prod.mk.injEq] at hok
      obtain ⟨htr, hte⟩ := hok
      subst htr; subst hte
      refine ⟨rfl, rfl, ?_, ?_, ?_⟩
      · have h := congrArg List.length
          (List.take_append_drop (splitIdx df.length r) df)
        rwa [List.length_append] at h
      · have h := hsorted
        conv at h => rw [← List.take_append_drop (splitIdx df.length r) df]
        rw [List.pairwise_append] at h
        exact h.2.2
      · intro x hx hx'
        have h := hsorted
        conv at h => rw [← List.take_append_drop (splitIdx df.length r) df]
        rw [List.pairwise_append] at h
        exact absurd (h.2.2 x hx x hx') (lt_irrefl _)
    · rw [if_pos hr] at hok
      exact absurd hok (by simp)
  · rw [split_chronological_def]
    by_cases hr : 0 < r ∧ r < 1
    · by_cases hk : splitIdx df.length r = 0 ∨ splitIdx df.length r = df.length
      · simp [hr, hk]
      · simp [hr, hk]
    · simp [hr]

/-! ## Export pipeline: orchestration (`run_export`)

`run_export` (export_pipeline.py lines 179–227) executes, in program order:

```python
validate_no_leakage(FEATURE_COLS, TARGET_COL)
with get_conn() as conn:
    df = query_features(conn)
if df.empty:
    raise RuntimeError(...)            # EmptyDatasetError of the taxonomy
train_df, test_df = split_chronological(df, test_ratio)
...
paths = save_parquet(X_train, X_test, y_train, y_test, output_dir, timestamp)
```

The embedding records the stages in the order they begin, so statements about
stage ordering are statements about the produced trace.  `query_features`
always yields the view's rows ordered by time (`SELECT ... ORDER BY time`);
the rows are a parameter of the embedding. -/

inductive Stage where
  | query
  | validateNoLeakage
  | split
  | save
deriving DecidableEq, Repr

/-- Embeds `validate_no_leakage` (export_pipeline.py lines 76–94): raises
iff the target column appears in the feature column list, naming it. -/
def validate_no_leakage (feature_cols : List String) (target_col : String) :
    Except ExportError Unit :=
  if target_col ∈ feature_cols then .error (.leakage target_col) else .ok ()

/-- Embeds the artifact naming of `save_parquet` (export_pipeline.py lines
132–173): four files `{name}_{timestamp}.parquet` in the output directory,
returned as a name → path mapping. -/
def save_parquet (output_dir timestamp : String) : List (String × String) :=
  ["X_train", "X_test", "y_train", "y_test"].map
    (fun name => (name, output_dir ++ name ++ "_" ++ timestamp ++ ".parquet"))

/-- Outcome of one export run: the stages in the order they began, and the
final result (artifact map on success). -/
structure ExportRun where
  trace : List Stage
  result : Except ExportError (List (String × String))
deriving Repr

/-- Embeds `run_export` (export_pipeline.py lines 179–227); see the section
comment for the embedded program order. -/
def run_export (feature_cols : List String) (target_col : String)
    (view_rows : List FRow) (test_ratio : ℚ) (output_dir timestamp : String) :
    ExportRun :=
  match validate_no_leakage feature_cols target_col with
  | .error e => ⟨[.validateNoLeakage], .error e⟩
  | .ok _ =>
    let df := view_rows
    if df = [] then
      ⟨[.validateNoLeakage, .query], .error .emptyDataset⟩
    else
      match split_chronological df test_ratio with
      | .error e => ⟨[.validateNoLeakage, .query, .split], .error e⟩
      | .ok _ =>
        ⟨[.validateNoLeakage, .query, .split, .save],
          .ok (save_parquet output_dir timestamp)⟩

/-- C3 counterexample.  On a successful concrete run the stage trace is
`[VALIDATE_NO_LEAKAGE, QUERY, SPLIT, SAVE]`, not the claimed
`[QUERY, VALIDATE_NO_LEAKAGE, SPLIT, SAVE]`: the leakage validation executes
before the query, not after it. -/
theorem C3_stage_order_counterexample :
    (run_export [] "price_eur_mwh"
        [⟨0, []⟩, ⟨1, []⟩, ⟨2, []⟩, ⟨3, []⟩, ⟨4, []⟩] (2/5) "data/"
        "20260228").trace =
      [Stage.validateNoLeakage, Stage.query, Stage.split, Stage.save] ∧
    (run_export [] "price_eur_mwh"
        [⟨0, []⟩, ⟨1, []⟩, ⟨2, []⟩, ⟨3, []⟩, ⟨4, []⟩] (2/5) "data/"
        "20260228").trace ≠
      [Stage.query, Stage.validateNoLeakage, Stage.split, Stage.save] := by
  have hidx : splitIdx 5 (2/5) = 3 := by
    unfold splitIdx
    have h : ((5 : ℕ) : ℚ) * (1 - 2/5) = 3 := by norm_num
    rw [h]
    norm_num
    rfl
  have hsplit : split_chronological
      [⟨0, []⟩, ⟨1, []⟩, ⟨2, []⟩, ⟨3, []⟩, ⟨4, []⟩] (2/5) =
      .ok ([⟨0, []⟩, ⟨1, []⟩, ⟨2, []⟩],
           [(⟨3, []⟩ : FRow), ⟨4, []⟩]) := by
    rw [split_chronological_def]
    simp only [List.length_cons, List.length_nil]
    rw [hidx]
    norm_num
  have hrun : run_export [] "price_eur_mwh"
      [⟨0, []⟩, ⟨1, []⟩, ⟨2, []⟩, ⟨3, []⟩, ⟨4, []⟩] (2/5) "data/" "20260228" =
      ⟨[Stage.validateNoLeakage, Stage.query, Stage.split, Stage.save],
        .ok (save_parquet "data/" "20260228")⟩ := by
    simp [run_export, validate_no_leakage, hsplit]
  rw [hrun]
  exact ⟨rfl, by decide⟩

/-- C3 amended.  `run_export` executes VALIDATE_NO_LEAKAGE, then QUERY, then
SPLIT, then SAVE; any stage failure is terminal (no later stage begins), and
the leakage validation (target absent from the feature columns, else
`LeakageError` naming the column) runs unconditionally first, before any data
is touched. -/
theorem C3_run_export_stage_order (cols : List String) (tgt : String)
    (rows : List FRow) (r : ℚ) (dir ts : String) :
    (tgt ∈ cols →
      run_export cols tgt rows r dir ts =
        ⟨[.validateNoLeakage], .error (.leakage tgt)⟩) ∧
    (tgt ∉ cols → rows = [] →
      run_export cols tgt rows r dir ts =
        ⟨[.validateNoLeakage, .query], .error .emptyDataset⟩) ∧
    (tgt ∉ cols → rows ≠ [] → ∀ e, split_chronological rows r = .error e →
      run_export cols tgt rows r dir ts =
        ⟨[.validateNoLeakage, .query, .split], .error e⟩) ∧
    (tgt ∉ cols → rows ≠ [] →
      ∀ p, split_chronological rows r = .ok p →
        run_export cols tgt rows r dir ts =
          ⟨[.validateNoLeakage, .query, .split, .save],
            .ok (save_parquet dir ts)⟩) := by
  refine ⟨?_, ?_, ?_, ?_⟩
  · intro hmem
    simp [run_export, validate_no_leakage, hmem]
  · intro hmem hrows
    simp [run_export, validate_no_leakage, hmem, hrows]
  · intro hmem hrows e hsplit
    simp [run_export, validate_no_leakage, hmem, hrows, hsplit]
  · intro hmem hrows p hsplit
    simp [run_export, validate_no_leakage, hmem, hrows, hsplit]

/-- Witness for C3's amended theorem at concrete inputs (leakage-free columns,
5 ascending rows, ratio 2/5). -/
theorem C3_run_export_stage_order_witness :
    (let cols := ["lag_1h"]; let tgt := "price_eur_mwh"
     let rows : List FRow := [⟨0, []⟩, ⟨1, []⟩, ⟨2, []⟩, ⟨3, []⟩, ⟨4, []⟩]
     (tgt ∈ cols →
       run_export cols tgt rows (2/5) "data/" "20260228" =
         ⟨[.validateNoLeakage], .error (.leakage tgt)⟩) ∧
     (tgt ∉ cols → rows = [] →
       run_export cols tgt rows (2/5) "data/" "20260228" =
         ⟨[.validateNoLeakage, .query], .error .emptyDataset⟩) ∧
     (tgt ∉ cols → rows ≠ [] → ∀ e, split_chronological rows (2/5) = .error e →
       run_export cols tgt rows (2/5) "data/" "20260228" =
         ⟨[.validateNoLeakage, .query, .split], .error e⟩) ∧
     (tgt ∉ cols → rows ≠ [] →
       ∀ p, split_chronological rows (2/5) = .ok p →
         run_export cols tgt rows (2/5) "data/" "20260228" =
           ⟨[.validateNoLeakage, .query, .split, .save],
             .ok (save_parquet "data/" "20260228")⟩)) :=
  C3_run_export_stage_order ["lag_1h"] "price_eur_mwh"
    [⟨0, []⟩, ⟨1, []⟩, ⟨2, []⟩, ⟨3, []⟩, ⟨4, []⟩] (2/5) "data/" "20260228"

/-- Witness for C1 at a concrete input: 5 strictly ascending rows, ratio 2/5,
`k = ⌊5·(3/5)⌋ = 3`. -/
theorem C1_split_chronological_correct_witness :
    (let df : List FRow := [⟨0, []⟩, ⟨1, []⟩, ⟨2, []⟩, ⟨3, []⟩, ⟨4, []⟩]
     (∀ train test, split_chronological df (2/5) = .ok (train, test) →
       train = df.take (splitIdx df.length (2/5)) ∧
       test = df.drop (splitIdx df.length (2/5)) ∧
       train.length + test.length = df.length ∧
       (∀ x ∈ train, ∀ y ∈ test, x.time < y.time) ∧
       (∀ x ∈ train, x ∉ test)) ∧
     ((∃ e, split_chronological df (2/5) = .error e) ↔
       (¬ (0 < (2/5 : ℚ) ∧ (2/5 : ℚ) < 1) ∨ splitIdx df.length (2/5) = 0 ∨
         splitIdx df.length (2/5) = df.length))) :=
  C1_split_chronological_correct
    [⟨0, []⟩, ⟨1, []⟩, ⟨2, []⟩, ⟨3, []⟩, ⟨4, []⟩] (2/5) (by decide)

/-! ## Collector abstraction (`base_collector.py`)

A parsed record is a Python dict; the validation pass inspects only its
`"time"` entry, so values are modelled just finely enough to distinguish the
three violation classes of `BaseCollector._validate` (lines 70–79): a
timezone-aware datetime, a naive datetime, and any non-datetime value. -/

inductive PyVal where
  | dt (tzinfo : Option Int)
  | num (q : ℚ)
  | str (s : String)
  | pynone
deriving DecidableEq, Repr

/-- A record dict: an association list with the first binding of a key
authoritative (Python dict keys are unique). -/
def PyRecord := List (String × PyVal)

/-- The violation classes raised by `_validate` (`ValidationError` of the
spec taxonomy; the code raises `ValueError` / `TypeError` / `ValueError`). -/
inductive ValidationIssue where
  | missingTime
  | wrongType
  | naiveTime
deriving DecidableEq, Repr

/-- The issue `_validate` finds in one record, if any, following the source's
check order: `"time" not in rec`, then `not isinstance(t, datetime)`, then
`t.tzinfo is None`. -/
def recordIssue (rec : PyRecord) : Option ValidationIssue :=
  match List.lookup "time" rec with
  | Option.none => some .missingTime
  | some (PyVal.dt Option.none) => some .naiveTime
  | some (PyVal.dt (some _)) => Option.none
  | some _ => some .wrongType

/-- Embeds the indexed loop of `BaseCollector._validate` (lines 70–79):
raises on the first violating record, carrying its index. -/
def validateFrom (i : ℕ) : List PyRecord → Except (ℕ × ValidationIssue) Unit
  | [] => .ok ()
  | rec :: rest =>
    match recordIssue rec with
    | some issue => .error (i, issue)
    | Option.none => validateFrom (i + 1) rest

/-- `BaseCollector._validate(records)`. -/
def validateRecords (records : List PyRecord) : Except (ℕ × ValidationIssue) Unit :=
  validateFrom 0 records

/-- Embeds `BaseCollector.run` (lines 30–35): `raw = fetch(); records =
parse(raw); _validate(records); return records`.  The fetched raw payload and
the collector's `parse` are parameters. -/
def collectorRun {α : Type} (raw : α) (parse : α → List PyRecord) :
    Except (ℕ × ValidationIssue) (List PyRecord) :=
  match validateRecords (parse raw) with
  | .error e => .error e
  | .ok _ => .ok (parse raw)

theorem validateFrom_ok_iff (i : ℕ) (l : List PyRecord) :
    validateFrom i l = .ok () ↔ ∀ rec ∈ l, recordIssue rec = Option.none := by
  induction l generalizing i with
  | nil => simp [validateFrom]
  | cons rec rest ih =>
    cases h : recordIssue rec with
    | none => simp [validateFrom, h, ih]
    | some issue => simp [validateFrom, h]

theorem except_error_iff_not_ok {E : Type} (x : Except E Unit) :
    (∃ e, x = .error e) ↔ x ≠ .ok () := by
  cases x <;> simp

/-- C2.  `run()` composes fetch, parse and validation: it fails exactly when
some parsed record lacks a usable `time` (missing key, non-datetime value, or
naive datetime — the cases of `recordIssue`), and on failure no record list is
returned; every record list it does return passed validation. -/
theorem C2_run_validates_time_invariant {α : Type} (raw : α)
    (parse : α → List PyRecord) :
    ((∃ e, collectorRun raw parse = .error e) ↔
      ∃ rec ∈ parse raw, recordIssue rec ≠ Option.none) ∧
    (∀ l, collectorRun raw parse = .ok l →
      ∀ rec ∈ l, recordIssue rec = Option.none) := by
  constructor
  · constructor
    · rintro ⟨e, he⟩
      unfold collectorRun at he
      cases hv : validateRecords (parse raw) with
      | ok u =>
        cases u
        rw [hv] at he
        simp at he
      | error e₂ =>
        by_contra hall
        push_neg at hall
        have : validateRecords (parse raw) = .ok () :=
          (validateFrom_ok_iff 0 (parse raw)).2 hall
        rw [this] at hv
        simp at hv
    · intro hbad
      unfold collectorRun
      cases hv : validateRecords (parse raw) with
      | ok u =>
        obtain ⟨rec, hmem, hne⟩ := hbad
        cases u
        exact absurd ((validateFrom_ok_iff 0 (parse raw)).1 hv rec hmem) hne
      | error e => exact ⟨e, by simp⟩
  · intro l hl
    unfold collectorRun at hl
    cases hv : validateRecords (parse raw) with
    | ok u =>
      cases u
      rw [hv] at hl
      simp at hl
      subst hl
      exact (validateFrom_ok_iff 0 (parse raw)).1 hv
    | error e =>
      rw [hv] at hl
      simp at hl

/-- Witness for C2: one tz-aware record validates; the statement is
instantiated at a concrete raw payload and parse function. -/
theorem C2_run_validates_time_invariant_witness :
    (let parse : Unit → List PyRecord := fun _ => [[("time", PyVal.dt (some 0))]]
     ((∃ e, collectorRun () parse = .error e) ↔
       ∃ rec ∈ parse (), recordIssue rec ≠ Option.none) ∧
     (∀ l, collectorRun () parse = .ok l →
       ∀ rec ∈ l, recordIssue rec = Option.none)) :=
  C2_run_validates_time_invariant ()
    (fun _ => [[("time", PyVal.dt (some 0))]])

/-- C10.  When every parsed record passes validation, `run()` returns exactly
the list `parse` produced — validation neither filters, mutates, reorders nor
copies it. -/
theorem C10_run_returns_parse_output_unchanged {α : Type} (raw : α)
    (parse : α → List PyRecord)
    (h : ∀ rec ∈ parse raw, recordIssue rec = Option.none) :
    collectorRun raw parse = .ok (parse raw) := by
  unfold collectorRun
  rw [show validateRecords (parse raw) = .ok () from
    (validateFrom_ok_iff 0 (parse raw)).2 h]

/-- Witness for C10 at a concrete two-record parse result. -/
theorem C10_run_returns_parse_output_unchanged_witness :
    collectorRun () (fun _ => [[("time", PyVal.dt (some 0))],
      [("time", PyVal.dt (some 0)), ("price_eur_mwh", PyVal.num 85)]]) =
      .ok [[("time", PyVal.dt (some 0))],
        [("time", PyVal.dt (some 0)), ("price_eur_mwh", PyVal.num 85)]] :=
  C10_run_returns_parse_output_unchanged ()
    (fun _ => [[("time", PyVal.dt (some 0))],
      [("time", PyVal.dt (some 0)), ("price_eur_mwh", PyVal.num 85)]])
    (by decide)

/-! ## Retry-capable fetch transport (`BaseCollector._fetch_with_retry`)

The transport issues up to `max_retries` GETs (base_collector.py lines
39–68).  The network is modelled as the sequence of responses the server
would return to the k-th request; the embedding records how many GETs were
issued, the seconds slept between them, and the final result.
`raise_for_status` raises for every non-2xx status (httpx semantics),
carrying that status. -/

structure HttpResponse where
  status : ℕ
  retryAfter : Option ℕ
deriving DecidableEq, Repr

/-- `response.raise_for_status()`: ok on 2xx, error carrying the status
otherwise. -/
def raiseForStatus (r : HttpResponse) : Except ℕ HttpResponse :=
  if 200 ≤ r.status ∧ r.status < 300 then .ok r else .error r.status

/-- The transient statuses the loop retries: 429, and 500/502/503. -/
def isRetryable (r : HttpResponse) : Prop :=
  r.status = 429 ∨ r.status = 500 ∨ r.status = 502 ∨ r.status = 503

instance (r : HttpResponse) : Decidable (isRetryable r) := by
  unfold isRetryable
  infer_instance

/-- Seconds slept after the response to attempt `attempt` (0-based), when it
is retried: `Retry-After` (default 60) on 429, else `2 ** attempt`. -/
def sleepFor (responses : ℕ → HttpResponse) (attempt : ℕ) : ℕ :=
  if (responses attempt).status = 429 then (responses attempt).retryAfter.getD 60
  else 2 ^ attempt

structure FetchOutcome where
  requests : ℕ
  sleeps : List ℕ
  result : Except ℕ HttpResponse
deriving Repr

/-- The `for attempt in range(max_retries)` loop of `_fetch_with_retry`:
`remaining` is the number of loop iterations left, `attempt` the 0-based
index of the next attempt, `acc` the sleeps so far.  When the loop exhausts,
`raise_for_status` runs on the last response received (`attempt - 1`). -/
def fetchLoop (responses : ℕ → HttpResponse) :
    ℕ → ℕ → List ℕ → FetchOutcome
  | 0, attempt, acc => ⟨attempt, acc, raiseForStatus (responses (attempt - 1))⟩
  | remaining + 1, attempt, acc =>
    let resp := responses attempt
    if resp.status = 429 then
      fetchLoop responses remaining (attempt + 1) (acc ++ [resp.retryAfter.getD 60])
    else if resp.status = 500 ∨ resp.status = 502 ∨ resp.status = 503 then
      fetchLoop responses remaining (attempt + 1) (acc ++ [2 ^ attempt])
    else
      ⟨attempt + 1, acc, raiseForStatus resp⟩

/-- Embeds `_fetch_with_retry` with its default `max_retries = 3`. -/
def fetch_with_retry (responses : ℕ → HttpResponse) (max_retries : ℕ := 3) :
    FetchOutcome :=
  fetchLoop responses max_retries 0 []

/-- C5.  The transport issues at most 3 GETs.  If the first response is
non-retryable it stops at once with `raise_for_status` of that response (2xx
succeeds, any other status fails immediately, no retry, no sleep); a 429 is
retried after `Retry-After` seconds (default 60), a 500/502/503 after
`2^attempt` seconds (1s, 2s, 4s); after three retryable responses it fails
with the final response's status. -/
theorem C5_fetch_with_retry_policy (responses : ℕ → HttpResponse) :
    (fetch_with_retry responses 3).requests ≤ 3 ∧
    (¬ isRetryable (responses 0) →
      fetch_with_retry responses 3 = ⟨1, [], raiseForStatus (responses 0)⟩) ∧
    (isRetryable (responses 0) → ¬ isRetryable (responses 1) →
      fetch_with_retry responses 3 =
        ⟨2, [sleepFor responses 0], raiseForStatus (responses 1)⟩) ∧
    (isRetryable (responses 0) → isRetryable (responses 1) →
      ¬ isRetryable (responses 2) →
      fetch_with_retry responses 3 =
        ⟨3, [sleepFor responses 0, sleepFor responses 1],
          raiseForStatus (responses 2)⟩) ∧
    (isRetryable (responses 0) → isRetryable (responses 1) →
      isRetryable (responses 2) →
      fetch_with_retry responses 3 =
        ⟨3, [sleepFor responses 0, sleepFor responses 1, sleepFor responses 2],
          .error (responses 2).status⟩) ∧
    (∀ attempt, isRetryable (responses attempt) →
      sleepFor responses attempt =
        if (responses attempt).status = 429 then
          (responses attempt).retryAfter.getD 60
        else 2 ^ attempt) := by
  have hstep : ∀ remaining attempt acc,
      fetchLoop responses (remaining + 1) attempt acc =
        if isRetryable (responses attempt) then
          fetchLoop responses remaining (attempt + 1)
            (acc ++ [sleepFor responses attempt])
        else ⟨attempt + 1, acc, raiseForStatus (responses attempt)⟩ := by
    intro remaining attempt acc
    by_cases h429 : (responses attempt).status = 429
    · have : isRetryable (responses attempt) := Or.inl h429
      simp [fetchLoop, h429, this, sleepFor]
    · by_cases h5xx : (responses attempt).status = 500 ∨
          (responses attempt).status = 502 ∨ (responses attempt).status = 503
      · have : isRetryable (responses attempt) := Or.inr h5xx
        simp [fetchLoop, h429, h5xx, this, sleepFor]
      · have : ¬ isRetryable (responses attempt) := by
          unfold isRetryable
          tauto
        simp [fetchLoop, h429, h5xx, this]
  have hretry2xx : ∀ attempt, isRetryable (responses attempt) →
      raiseForStatus (responses attempt) = .error (responses attempt).status := by
    intro attempt h
    unfold raiseForStatus
    rcases h with h | h | h | h <;> rw [h] <;> norm_num
  by_cases h0 : isRetryable (responses 0)
  · by_cases h1 : isRetryable (responses 1)
    · by_cases h2 : isRetryable (responses 2)
      · have hrun : fetch_with_retry responses 3 =
            ⟨3, [sleepFor responses 0, sleepFor responses 1, sleepFor responses 2],
              .error (responses 2).status⟩ := by
          unfold fetch_with_retry
          rw [show (3 : ℕ) = 2 + 1 from rfl, hstep, if_pos h0,
            show (2 : ℕ) = 1 + 1 from rfl, hstep, if_pos h1,
            show (1 : ℕ) = 0 + 1 from rfl, hstep, if_pos h2]
          simp [fetchLoop, hretry2xx 2 h2]
        refine ⟨by rw [hrun], fun h => absurd h0 h, fun _ h => absurd h1 h,
          fun _ _ h => absurd h2 h, fun _ _ _ => hrun, fun _ _ => rfl⟩
      · have hrun : fetch_with_retry responses 3 =
            ⟨3, [sleepFor responses 0, sleepFor responses 1],
              raiseForStatus (responses 2)⟩ := by
          unfold fetch_with_retry
          rw [show (3 : ℕ) = 2 + 1 from rfl, hstep, if_pos h0,
            show (2 : ℕ) = 1 + 1 from rfl, hstep, if_pos h1,
            show (1 : ℕ) = 0 + 1 from rfl, hstep, if_neg h2]
          simp
        refine ⟨by rw [hrun], fun h => absurd h0 h, fun _ h => absurd h1 h,
          fun _ _ _ => hrun, fun _ _ h => absurd h h2, fun _ _ => rfl⟩
    · have hrun : fetch_with_retry responses 3 =
          ⟨2, [sleepFor responses 0], raiseForStatus (responses 1)⟩ := by
        unfold fetch_with_retry
        rw [show (3 : ℕ) = 2 + 1 from rfl, hstep, if_pos h0,
          show (2 : ℕ) = 1 + 1 from rfl, hstep, if_neg h1]
        simp
      refine ⟨by rw [hrun]; show (2:ℕ) ≤ 3; decide, fun h => absurd h0 h, fun _ _ => hrun,
        fun _ h _ => absurd h h1, fun _ h _ => absurd h h1, fun _ _ => rfl⟩
  · have hrun : fetch_with_retry responses 3 =
        ⟨1, [], raiseForStatus (responses 0)⟩ := by
      unfold fetch_with_retry
      rw [show (3 : ℕ) = 2 + 1 from rfl, hstep, if_neg h0]
    refine ⟨by rw [hrun]; show (1:ℕ) ≤ 3; decide, fun _ => hrun, fun h _ => absurd h h0,
      fun h _ _ => absurd h h0, fun h _ _ => absurd h h0, fun _ _ => rfl⟩

/-- Witness for C5 against an always-2xx server: one GET, no sleeps,
success. -/
theorem C5_fetch_with_retry_policy_witness :
    ((fetch_with_retry (fun _ => ⟨200, Option.none⟩) 3).requests ≤ 3 ∧
     (¬ isRetryable (⟨200, Option.none⟩ : HttpResponse) →
       fetch_with_retry (fun _ => ⟨200, Option.none⟩) 3 =
         ⟨1, [], raiseForStatus ⟨200, Option.none⟩⟩) ∧
     (isRetryable (⟨200, Option.none⟩ : HttpResponse) →
       ¬ isRetryable (⟨200, Option.none⟩ : HttpResponse) →
       fetch_with_retry (fun _ => ⟨200, Option.none⟩) 3 =
         ⟨2, [sleepFor (fun _ => ⟨200, Option.none⟩) 0],
           raiseForStatus ⟨200, Option.none⟩⟩) ∧
     (isRetryable (⟨200, Option.none⟩ : HttpResponse) →
       isRetryable (⟨200, Option.none⟩ : HttpResponse) →
       ¬ isRetryable (⟨200, Option.none⟩ : HttpResponse) →
       fetch_with_retry (fun _ => ⟨200, Option.none⟩) 3 =
         ⟨3, [sleepFor (fun _ => ⟨200, Option.none⟩) 0,
           sleepFor (fun _ => ⟨200, Option.none⟩) 1],
           raiseForStatus ⟨200, Option.none⟩⟩) ∧
     (isRetryable (⟨200, Option.none⟩ : HttpResponse) →
       isRetryable (⟨200, Option.none⟩ : HttpResponse) →
       isRetryable (⟨200, Option.none⟩ : HttpResponse) →
       fetch_with_retry (fun _ => ⟨200, Option.none⟩) 3 =
         ⟨3, [sleepFor (fun _ => ⟨200, Option.none⟩) 0,
           sleepFor (fun _ => ⟨200, Option.none⟩) 1,
           sleepFor (fun _ => ⟨200, Option.none⟩) 2],
           .error (200 : ℕ)⟩) ∧
     (∀ attempt, isRetryable (⟨200, Option.none⟩ : HttpResponse) →
       sleepFor (fun _ => ⟨200, Option.none⟩) attempt =
         if (200 : ℕ) = 429 then (Option.none : Option ℕ).getD 60
         else 2 ^ attempt)) :=
  C5_fetch_with_retry_policy (fun _ => ⟨200, Option.none⟩)

/-! ## Persistence layer (`timescale_client.py`)

`_bulk_execute` (lines 117–123) returns 0 for an empty record list without
touching the pool, otherwise acquires a connection and executes the batched
`INSERT ... ON CONFLICT (<natural key>) DO NOTHING` for each record.  The
store is modelled as an association list from natural key to the rest of the
row (`K` instantiates to the per-table composite key, e.g. `(time, domain)`);
`executemany` applies the single-row conflict-ignoring insert to each record
in order, and the returned count is the number of rows the batch actually
inserted. -/

/-- One `INSERT ... ON CONFLICT DO NOTHING`: insert iff the natural key is
absent; first write wins.  Returns the updated store and the rowcount (0 or
1). -/
def upsertRow {K V : Type} [DecidableEq K] (store : List (K × V)) (kv : K × V) :
    List (K × V) × ℕ :=
  if kv.1 ∈ store.map Prod.fst then (store, 0) else (store ++ [kv], 1)

/-- Fold step of the batched insert: thread the store, accumulate the count. -/
def bulkStep {K V : Type} [DecidableEq K] (acc : List (K × V) × ℕ)
    (kv : K × V) : List (K × V) × ℕ :=
  (upsertRow acc.1 kv |>.1, acc.2 + (upsertRow acc.1 kv).2)

structure BulkResult (K V : Type) where
  connectionAcquired : Bool
  store : List (K × V)
  inserted : ℕ

/-- Embeds `_bulk_execute`:  `if not records: return 0` (no connection),
else run the batch under one connection and return the inserted count. -/
def bulk_execute {K V : Type} [DecidableEq K] (store records : List (K × V)) :
    BulkResult K V :=
  if records.isEmpty then ⟨false, store, 0⟩
  else
    ⟨true, (records.foldl bulkStep (store, 0)).1,
      (records.foldl bulkStep (store, 0)).2⟩

/-- The row stored under natural key `k` (SQL `SELECT ... WHERE key = k`). -/
def getVal {K V : Type} [DecidableEq K] (store : List (K × V)) (k : K) :
    Option V :=
  (store.find? (fun p => decide (p.1 = k))).map Prod.snd

theorem getVal_append_of_mem {K V : Type} [DecidableEq K]
    (store l : List (K × V)) (k : K) (h : k ∈ store.map Prod.fst) :
    getVal (store ++ l) k = getVal store k := by
  have hsome : (store.find? (fun p => decide (p.1 = k))).isSome := by
    rw [List.find?_isSome]
    obtain ⟨p, hp, hpk⟩ := List.mem_map.1 h
    exact ⟨p, hp, by simp [hpk]⟩
  unfold getVal
  rw [List.find?_append]
  cases hf : store.find? (fun p => decide (p.1 = k)) with
  | none => rw [hf] at hsome; simp at hsome
  | some p => simp

/-- Invariants of the batched fold, by induction over the record list. -/
theorem bulkFold_spec {K V : Type} [DecidableEq K] (records : List (K × V)) :
    ∀ (store : List (K × V)) (n : ℕ),
      (∀ k, k ∈ store.map Prod.fst →
        k ∈ (records.foldl bulkStep (store, n)).1.map Prod.fst) ∧
      (∀ kv ∈ records, kv.1 ∈ (records.foldl bulkStep (store, n)).1.map Prod.fst) ∧
      ((store.map Prod.fst).Nodup →
        ((records.foldl bulkStep (store, n)).1.map Prod.fst).Nodup) ∧
      (∀ k, k ∈ store.map Prod.fst →
        getVal (records.foldl bulkStep (store, n)).1 k = getVal store k) ∧
      ((records.foldl bulkStep (store, n)).1.length + n =
        store.length + (records.foldl bulkStep (store, n)).2) ∧
      ((∀ kv ∈ records, kv.1 ∈ store.map Prod.fst) →
        records.foldl bulkStep (store, n) = (store, n)) := by
  induction records with
  | nil => intro store n; simp
  | cons kv rest ih =>
    intro store n
    by_cases hmem : kv.1 ∈ store.map Prod.fst
    · have hstep : bulkStep (store, n) kv = (store, n) := by
        simp [bulkStep, upsertRow, hmem]
      rw [List.foldl_cons, hstep]
      obtain ⟨ih1, ih2, ih3, ih4, ih5, ih6⟩ := ih store n
      refine ⟨ih1, ?_, ih3, ih4, ih5, ?_⟩
      · intro kv' hkv'
        rcases List.mem_cons.1 hkv' with h | h
        · subst h
          exact ih1 kv'.1 hmem
        · exact ih2 kv' h
      · intro hall
        exact ih6 fun kv' h => hall kv' (List.mem_cons_of_mem _ h)
    · have hstep : bulkStep (store, n) kv = (store ++ [kv], n + 1) := by
        simp [bulkStep, upsertRow, hmem]
      rw [List.foldl_cons, hstep]
      obtain ⟨ih1, ih2, ih3, ih4, ih5, ih6⟩ := ih (store ++ [kv]) (n + 1)
      have hsub : ∀ k, k ∈ store.map Prod.fst → k ∈ (store ++ [kv]).map Prod.fst := by
        intro k hk
        rw [List.map_append, List.mem_append]
        exact Or.inl hk
      refine ⟨fun k hk => ih1 k (hsub k hk), ?_, ?_, ?_, ?_, ?_⟩
      · intro kv' hkv'
        rcases List.mem_cons.1 hkv' with h | h
        · subst h
          exact ih1 kv'.1 (by simp)
        · exact ih2 kv' h
      · intro hnodup
        refine ih3 ?_
        rw [List.map_append, List.nodup_append]
        exact ⟨hnodup, List.nodup_singleton _, by
          intro a ha hb
          simp at hb
          subst hb
          exact hmem ha⟩
      · intro k hk
        rw [ih4 k (hsub k hk), getVal_append_of_mem store [kv] k hk]
      · rw [List.length_append] at ih5
        simp only [List.length_singleton] at ih5
        omega
      · intro hall
        exact absurd (hall kv (List.mem_cons_self kv rest)) hmem

/-- C4.  Each persistence upsert is an idempotent conflict-ignoring insert
keyed on the natural key: an empty record list returns 0 without acquiring a
connection; a call never overwrites an existing key (first write wins); the
returned count is exactly the number of rows actually added; every record's
key is present afterwards; the store keeps one row per natural key; and
re-upserting the same record set any number of further times inserts 0 and
changes nothing. -/
theorem C4_bulk_execute_idempotent (K V : Type) [DecidableEq K]
    (store records : List (K × V)) (hnodup : (store.map Prod.fst).Nodup) :
    (records = [] → bulk_execute store records = ⟨false, store, 0⟩) ∧
    ((bulk_execute store records).store.map Prod.fst).Nodup ∧
    (∀ k, k ∈ store.map Prod.fst →
      getVal (bulk_execute store records).store k = getVal store k) ∧
    ((bulk_execute store records).store.length =
      store.length + (bulk_execute store records).inserted) ∧
    (∀ kv ∈ records, kv.1 ∈ (bulk_execute store records).store.map Prod.fst) ∧
    (bulk_execute (bulk_execute store records).store records).store =
      (bulk_execute store records).store ∧
    (bulk_execute (bulk_execute store records).store records).inserted = 0 ∧
    (∀ N, (fun s => (bulk_execute s records).store)^[N]
        (bulk_execute store records).store = (bulk_execute store records).store) := by
  by_cases hrec : records = []
  · subst hrec
    refine ⟨fun _ => rfl, ?_, ?_, ?_, ?_, ?_, ?_, ?_⟩
    · simpa [bulk_execute] using hnodup
    · intro k _; simp [bulk_execute]
    · simp [bulk_execute]
    · simp
    · simp [bulk_execute]
    · simp [bulk_execute]
    · intro N
      exact Function.iterate_fixed (by simp [bulk_execute]) N
  · obtain ⟨h1, h2, h3, h4, h5, _⟩ := bulkFold_spec records store 0
    have hbe : bulk_execute store records =
        ⟨true, (records.foldl bulkStep (store, 0)).1,
          (records.foldl bulkStep (store, 0)).2⟩ := by
      simp [bulk_execute, hrec]
    have hsecond : bulk_execute (records.foldl bulkStep (store, 0)).1 records =
        ⟨true, (records.foldl bulkStep (store, 0)).1, 0⟩ := by
      obtain ⟨_, _, _, _, _, k6⟩ :=
        bulkFold_spec records (records.foldl bulkStep (store, 0)).1 0
      have := k6 h2
      simp [bulk_execute, hrec, this]
    refine ⟨fun h => absurd h hrec, ?_, ?_, ?_, ?_, ?_, ?_, ?_⟩
    · rw [hbe]; exact h3 hnodup
    · rw [hbe]; exact h4
    · rw [hbe]; simpa using h5
    · rw [hbe]; exact h2
    · rw [hbe]; rw [hsecond]
    · rw [hbe]; rw [hsecond]
    · intro N
      rw [hbe]
      exact Function.iterate_fixed (by rw [hsecond]) N

/-- Witness for C4: upserting two price-style records (duplicate natural key
inside the batch) into an empty store. -/
theorem C4_bulk_execute_idempotent_witness :
    (let store : List (ℕ × ℚ) := []
     let records : List (ℕ × ℚ) := [(0, 85), (0, 99), (60, 92)]
     (records = [] → bulk_execute store records = ⟨false, store, 0⟩) ∧
     ((bulk_execute store records).store.map Prod.fst).Nodup ∧
     (∀ k, k ∈ store.map Prod.fst →
       getVal (bulk_execute store records).store k = getVal store k) ∧
     ((bulk_execute store records).store.length =
       store.length + (bulk_execute store records).inserted) ∧
     (∀ kv ∈ records, kv.1 ∈ (bulk_execute store records).store.map Prod.fst) ∧
     (bulk_execute (bulk_execute store records).store records).store =
       (bulk_execute store records).store ∧
     (bulk_execute (bulk_execute store records).store records).inserted = 0 ∧
     (∀ N, (fun s => (bulk_execute s records).store)^[N]
         (bulk_execute store records).store =
       (bulk_execute store records).store)) :=
  C4_bulk_execute_idempotent ℕ ℚ [] [(0, 85), (0, 99), (60, 92)] (by decide)

/-! ## ENTSO-E price collector (`entsoe_collector.py`)

`parse` walks the XML envelope: every `TimeSeries`, its optional `Period`,
the period's `timeInterval/start` and `resolution`, and the period's
`Point`s.  The envelope is modelled post-XML: optional sub-elements are
`Option`s exactly where `_text(...)` can return `None`.  Timestamps are epoch
minutes (`datetime.fromisoformat` + `timedelta(minutes=...)` arithmetic);
prices are `ℚ`. -/

structure EntsoePoint where
  position : Option Int
  price : Option ℚ
deriving DecidableEq, Repr

structure EntsoePeriod where
  start : Option Int
  resolution : Option String
  points : List EntsoePoint
deriving DecidableEq, Repr

structure EntsoeTimeSeries where
  currency : Option String
  period : Option EntsoePeriod
deriving DecidableEq, Repr

structure PriceRec where
  time : Int
  price_eur_mwh : ℚ
  currency : String
  domain : String
deriving DecidableEq, Repr

/-- The fixed trading domain `10YCH-SWISSGRIDZ`. -/
def entsoeDomain : String := "10YCH-SWISSGRIDZ"

/-- Embeds `_resolution_to_minutes` (entsoe_collector.py lines 99–101):
`{"PT15M": 15, "PT30M": 30, "PT60M": 60, "P1D": 1440}.get(resolution, 60)`. -/
def resolution_to_minutes (resolution : String) : Int :=
  if resolution = "PT15M" then 15
  else if resolution = "PT30M" then 30
  else if resolution = "PT60M" then 60
  else if resolution = "P1D" then 1440
  else 60

/-- One `TimeSeries` of `EntsoeCollector.parse` (lines 59–87): currency
defaults to `"EUR"`, a missing `Period` or missing interval start skips the
series, a point missing `position` or `price.amount` is skipped, and each
kept point yields a record at
`interval_start + (position - 1) * resolution_minutes`. -/
def parseTimeSeries (ts : EntsoeTimeSeries) : List PriceRec :=
  let currency := ts.currency.getD "EUR"
  match ts.period with
  | Option.none => []
  | some period =>
    match period.start with
    | Option.none => []
    | some interval_start =>
      let interval_minutes := resolution_to_minutes (period.resolution.getD "PT60M")
      period.points.filterMap fun pt =>
        match pt.position, pt.price with
        | some pos, some price =>
          some ⟨interval_start + (pos - 1) * interval_minutes, price, currency,
            entsoeDomain⟩
        | _, _ => Option.none

/-- `EntsoeCollector.parse` over the whole envelope (all `TimeSeries`). -/
def entsoeParse (doc : List EntsoeTimeSeries) : List PriceRec :=
  (doc.map parseTimeSeries).flatten

/-- 2026-02-28T00:00Z in epoch minutes (1772236800 s / 60). -/
def feb28_2026 : Int := 29537280

/-- C6.  Every point at 1-based position `p` with price `a` inside an
interval starting at `s` yields a record timestamped
`s + (p - 1) * resolution_minutes`; the resolution token maps 15→15, 30→30,
60→60, daily→1440 and anything else to 60; and the spec's concrete envelope
(one series, PT60M, start 2026-02-28T00:00Z, positions 1 and 2 with prices
85.50 and 92.10) parses to exactly the two records 00:00Z/85.50 and
01:00Z/92.10 with currency EUR. -/
theorem C6_entsoe_parse_positions (doc : List EntsoeTimeSeries)
    (cur : Option String) (res : Option String) (points : List EntsoePoint)
    (s pos : Int) (pt : EntsoePoint) (price : ℚ)
    (hts : (⟨cur, some ⟨some s, res, points⟩⟩ : EntsoeTimeSeries) ∈ doc)
    (hpt : pt ∈ points)
    (hpos : pt.position = some pos) (hprice : pt.price = some price) :
    (⟨s + (pos - 1) * resolution_to_minutes (res.getD "PT60M"),
        price, cur.getD "EUR", entsoeDomain⟩ : PriceRec) ∈
      entsoeParse doc ∧
    resolution_to_minutes "PT15M" = 15 ∧
    resolution_to_minutes "PT30M" = 30 ∧
    resolution_to_minutes "PT60M" = 60 ∧
    resolution_to_minutes "P1D" = 1440 ∧
    (∀ tok, tok ∉ ["PT15M", "PT30M", "PT60M", "P1D"] →
      resolution_to_minutes tok = 60) ∧
    entsoeParse [⟨some "EUR", some ⟨some feb28_2026, some "PT60M",
        [⟨some 1, some (855/10)⟩, ⟨some 2, some (921/10)⟩]⟩⟩] =
      [⟨feb28_2026, 855/10, "EUR", entsoeDomain⟩,
       ⟨feb28_2026 + 60, 921/10, "EUR", entsoeDomain⟩] := by
  refine ⟨?_, rfl, rfl, rfl, rfl, ?_, ?_⟩
  · unfold entsoeParse
    rw [List.mem_flatten]
    refine ⟨parseTimeSeries ⟨cur, some ⟨some s, res, points⟩⟩,
      List.mem_map_of_mem parseTimeSeries hts, ?_⟩
    refine List.mem_filterMap.2 ⟨pt, hpt, ?_⟩
    rw [hpos, hprice]
  · intro tok htok
    simp only [List.mem_cons, List.not_mem_nil, or_false, not_or] at htok
    obtain ⟨h1, h2, h3, h4⟩ := htok
    simp [resolution_to_minutes, h1, h2, h3, h4]
  · unfold entsoeParse parseTimeSeries
    simp [resolution_to_minutes]

/-- Witness for C6 at the spec's concrete envelope. -/
theorem C6_entsoe_parse_positions_witness :
    ((⟨feb28_2026 + (1 - 1) * resolution_to_minutes
        ((some "PT60M" : Option String).getD "PT60M"),
        855/10, (some "EUR" : Option String).getD "EUR", entsoeDomain⟩ :
          PriceRec) ∈
      entsoeParse [⟨some "EUR", some ⟨some feb28_2026, some "PT60M",
        [⟨some 1, some (855/10)⟩, ⟨some 2, some (921/10)⟩]⟩⟩] ∧
    resolution_to_minutes "PT15M" = 15 ∧
    resolution_to_minutes "PT30M" = 30 ∧
    resolution_to_minutes "PT60M" = 60 ∧
    resolution_to_minutes "P1D" = 1440 ∧
    (∀ tok, tok ∉ ["PT15M", "PT30M", "PT60M", "P1D"] →
      resolution_to_minutes tok = 60) ∧
    entsoeParse [⟨some "EUR", some ⟨some feb28_2026, some "PT60M",
        [⟨some 1, some (855/10)⟩, ⟨some 2, some (921/10)⟩]⟩⟩] =
      [⟨feb28_2026, 855/10, "EUR", entsoeDomain⟩,
       ⟨feb28_2026 + 60, 921/10, "EUR", entsoeDomain⟩]) :=
  C6_entsoe_parse_positions
    [⟨some "EUR", some ⟨some feb28_2026, some "PT60M",
      [⟨some 1, some (855/10)⟩, ⟨some 2, some (921/10)⟩]⟩⟩]
    (some "EUR") (some "PT60M")
    [⟨some 1, some (855/10)⟩, ⟨some 2, some (921/10)⟩]
    feb28_2026 1 ⟨some 1, some (855/10)⟩ (855/10)
    (List.mem_singleton.2 rfl) (by simp) rfl rfl

/-! ## EKZ tariff collector (`ekz_collector.py`)

`parse` (lines 44–82) reads `data.get("prices", [])`; for each entry it
takes `start_timestamp` (skipping `None`), builds the dict
`{e["unit"]: e["value"] for e in entry.get("electricity", [])}` (later
duplicates of a unit overwrite earlier ones) and takes its `"CHF_kWh"`
value, skipping entries without one.  When the `prices` list is missing or
empty it logs a warning (modelled as the `warned` flag) and still returns
normally.  The upstream JSON object may also carry the older flat
`intervals[]`-with-`price` shape; `parse` never reads that key, so it is kept
in the response model to state what the code does with it.  Timestamps are
epoch seconds (`_parse_timestamp` forces UTC-awareness). -/

structure EkzTagged where
  unit : String
  value : ℚ
deriving DecidableEq, Repr

structure EkzEntry where
  start_timestamp : Option Int
  electricity : List EkzTagged
deriving DecidableEq, Repr

/-- An entry of the older flat `intervals[]` provider shape. -/
structure EkzFlatInterval where
  start_timestamp : Option Int
  price : Option ℚ
deriving DecidableEq, Repr

structure EkzResponse where
  prices : List EkzEntry
  intervals : List EkzFlatInterval
deriving DecidableEq, Repr

structure TariffRec where
  time : Int
  price_chf_kwh : ℚ
  tariff_type : String
deriving DecidableEq, Repr

/-- `{e["unit"]: e["value"] for e in l}.get(u)`: the value of the last
element tagged `u`, if any. -/
def unitValue (l : List EkzTagged) (u : String) : Option ℚ :=
  (l.reverse.find? fun e => decide (e.unit = u)).map EkzTagged.value

/-- One entry of `EkzCollector.parse`: `None` when the entry is skipped. -/
def ekzEntryRecord (tariff_type : String) (entry : EkzEntry) : Option TariffRec :=
  match entry.start_timestamp with
  | Option.none => Option.none
  | some ts =>
    match unitValue entry.electricity "CHF_kWh" with
    | Option.none => Option.none
    | some price => some ⟨ts, price, tariff_type⟩

/-- `EkzCollector.parse`: the warning flag (`prices` missing or empty) and
the record list. -/
def ekzParse (tariff_type : String) (data : EkzResponse) :
    Bool × List TariffRec :=
  (data.prices.isEmpty, data.prices.filterMap (ekzEntryRecord tariff_type))

/-- C7 counterexample.  A response in the recognized older flat
`intervals[]`-with-`price` shape (a well-formed interval with both a start
timestamp and a price) yields zero records: `parse` does not produce records
from whichever shape is present — it only reads `prices[]`. -/
theorem C7_flat_shape_counterexample :
    (ekzParse "dynamic"
      ⟨[], [⟨some 1772236800, some (1234/10000)⟩]⟩).2 = [] ∧
    (⟨[], [⟨some 1772236800, some (1234/10000)⟩]⟩ : EkzResponse).intervals ≠
      [] := by
  exact ⟨rfl, by decide⟩

/-- C7 amended.  `parse` recognizes only the `prices[]`-with-nested-
`electricity[]` shape: entries lacking a usable start timestamp or a
`CHF_kWh`-tagged electricity value are skipped silently; the `intervals[]`
content of a response never influences the output; and a response whose
`prices` list is absent or empty (including the flat-shape responses) logs a
warning and returns an empty record list rather than failing. -/
theorem C7_ekz_parse_prices_shape_only (tt : String) (e : EkzEntry)
    (rest : List EkzEntry) (prices : List EkzEntry)
    (ints ints' : List EkzFlatInterval)
    (hskip : e.start_timestamp = Option.none ∨
      unitValue e.electricity "CHF_kWh" = Option.none) :
    ((ekzParse tt ⟨e :: rest, ints⟩).2 = (ekzParse tt ⟨rest, ints⟩).2) ∧
    (ekzParse tt ⟨prices, ints⟩ = ekzParse tt ⟨prices, ints'⟩) ∧
    (ekzParse tt ⟨[], ints⟩ = (true, [])) ∧
    (∀ entry ∈ prices, ∀ ts price, entry.start_timestamp = some ts →
      unitValue entry.electricity "CHF_kWh" = some price →
      (⟨ts, price, tt⟩ : TariffRec) ∈ (ekzParse tt ⟨prices, ints⟩).2) := by
  refine ⟨?_, rfl, rfl, ?_⟩
  · have hnone : ekzEntryRecord tt e = Option.none := by
      unfold ekzEntryRecord
      rcases hskip with h | h
      · rw [h]
      · cases hts : e.start_timestamp with
        | none => rfl
        | some ts => rw [h]
    simp [ekzParse, hnone]
  · intro entry hmem ts price hts hprice
    have : ekzEntryRecord tt entry = some ⟨ts, price, tt⟩ := by
      unfold ekzEntryRecord
      rw [hts, hprice]
    exact List.mem_filterMap.2 ⟨entry, hmem, this⟩

/-- Witness for C7's amended theorem: a skipped entry (no `CHF_kWh` value,
only a monthly `CHF_m` fee) alongside a kept one. -/
theorem C7_ekz_parse_prices_shape_only_witness :
    (let e : EkzEntry := ⟨some 1772236800, [⟨"CHF_m", 3⟩]⟩
     let keep : EkzEntry := ⟨some 1772237700,
       [⟨"CHF_m", 3⟩, ⟨"CHF_kWh", 1234/10000⟩]⟩
     ((ekzParse "dynamic" ⟨e :: [keep], []⟩).2 =
       (ekzParse "dynamic" ⟨[keep], []⟩).2) ∧
     (ekzParse "dynamic" ⟨[keep], []⟩ = ekzParse "dynamic" ⟨[keep], []⟩) ∧
     (ekzParse "dynamic" ⟨[], []⟩ = (true, [])) ∧
     (∀ entry ∈ [keep], ∀ ts price, entry.start_timestamp = some ts →
       unitValue entry.electricity "CHF_kWh" = some price →
       (⟨ts, price, "dynamic"⟩ : TariffRec) ∈
         (ekzParse "dynamic" ⟨[keep], []⟩).2)) :=
  C7_ekz_parse_prices_shape_only "dynamic"
    ⟨some 1772236800, [⟨"CHF_m", 3⟩]⟩
    [⟨some 1772237700, [⟨"CHF_m", 3⟩, ⟨"CHF_kWh", 1234/10000⟩]⟩]
    [⟨some 1772237700, [⟨"CHF_m", 3⟩, ⟨"CHF_kWh", 1234/10000⟩]⟩]
    [] []
    (Or.inr (by decide))

/-! ## BAFU hydro collector (`bafu_collector.py`)

`parse` (lines 54–93) merges payload entries by Unix timestamp into the
insertion-ordered dict `by_ts`, materialises one record per timestamp (fields
defaulting to `None` when never set), and sorts ascending by time.  The
`by_ts` dict is modelled as an insertion-ordered association list keyed by
the epoch timestamp; record times are the epoch seconds themselves
(`datetime.fromtimestamp(., tz=utc)` is strictly monotone and injective, so
sorting by the datetime is sorting by the epoch value). -/

structure BafuEntry where
  timestamp : Option Int
  par : Option String
  val : Option ℚ
deriving DecidableEq, Repr

structure HydroFields where
  discharge_m3s : Option ℚ
  level_masl : Option ℚ
deriving DecidableEq, Repr

structure HydroRec where
  time : Int
  station_id : String
  discharge_m3s : Option ℚ
  level_masl : Option ℚ
deriving DecidableEq, Repr

/-- `if ts_unix not in by_ts: by_ts[ts_unix] = {...}` — append a fresh slot
for an unseen timestamp. -/
def insertTs (m : List (Int × HydroFields)) (ts : Int) :
    List (Int × HydroFields) :=
  if ts ∈ m.map Prod.fst then m else m ++ [(ts, ⟨Option.none, Option.none⟩)]

/-- `by_ts[ts]["discharge_m3s"] = ...` -/
def setFlow (m : List (Int × HydroFields)) (ts : Int) (v : Option ℚ) :
    List (Int × HydroFields) :=
  m.map fun p => if p.1 = ts then (p.1, ⟨v, p.2.level_masl⟩) else p

/-- `by_ts[ts]["level_masl"] = ...` -/
def setHeight (m : List (Int × HydroFields)) (ts : Int) (v : Option ℚ) :
    List (Int × HydroFields) :=
  m.map fun p => if p.1 = ts then (p.1, ⟨p.2.discharge_m3s, v⟩) else p

/-- One payload entry of the merge loop: entries missing `timestamp` or
`par` are skipped; a `flow`/`height` tag sets the matching field (last write
wins); any other tag still creates the timestamp's slot. -/
def bafuStep (m : List (Int × HydroFields)) (e : BafuEntry) :
    List (Int × HydroFields) :=
  match e.timestamp, e.par with
  | some ts, some par =>
    if par = "flow" then setFlow (insertTs m ts) ts e.val
    else if par = "height" then setHeight (insertTs m ts) ts e.val
    else insertTs m ts
  | _, _ => m

/-- Ascending-time order on hydro records (`key=lambda r: r["time"]`). -/
def hydroLe (a b : HydroRec) : Prop := a.time ≤ b.time

instance : DecidableRel hydroLe := fun a b =>
  inferInstanceAs (Decidable (a.time ≤ b.time))

instance : IsTotal HydroRec hydroLe := ⟨fun a b => le_total a.time b.time⟩

instance : IsTrans HydroRec hydroLe := ⟨fun _ _ _ hab hbc => le_trans hab hbc⟩

/-- `BafuCollector.parse`: empty payload → `[]` (with a warning log);
otherwise merge by timestamp, materialise records, sort ascending by time. -/
def bafuParse (station_id : String) (payload : List BafuEntry) :
    List HydroRec :=
  if payload.isEmpty then []
  else
    let by_ts := payload.foldl bafuStep []
    let records := by_ts.map fun p =>
      (⟨p.1, station_id, p.2.discharge_m3s, p.2.level_masl⟩ : HydroRec)
    List.insertionSort hydroLe records

theorem map_fst_setFlow (m : List (Int × HydroFields)) (ts : Int)
    (v : Option ℚ) : (setFlow m ts v).map Prod.fst = m.map Prod.fst := by
  unfold setFlow
  rw [List.map_map]
  congr 1
  funext p
  by_cases h : p.1 = ts <;> simp [h]

theorem map_fst_setHeight (m : List (Int × HydroFields)) (ts : Int)
    (v : Option ℚ) : (setHeight m ts v).map Prod.fst = m.map Prod.fst := by
  unfold setHeight
  rw [List.map_map]
  congr 1
  funext p
  by_cases h : p.1 = ts <;> simp [h]

theorem mem_map_fst_insertTs (m : List (Int × HydroFields)) (ts : Int) :
    ts ∈ (insertTs m ts).map Prod.fst := by
  unfold insertTs
  by_cases h : ts ∈ m.map Prod.fst <;> simp [h]

theorem mem_map_fst_insertTs_of_mem (m : List (Int × HydroFields))
    (ts k : Int) (h : k ∈ m.map Prod.fst) :
    k ∈ (insertTs m ts).map Prod.fst := by
  unfold insertTs
  by_cases hts : ts ∈ m.map Prod.fst <;> simp [hts, h]

theorem nodup_map_fst_insertTs (m : List (Int × HydroFields)) (ts : Int)
    (h : (m.map Prod.fst).Nodup) : ((insertTs m ts).map Prod.fst).Nodup := by
  unfold insertTs
  by_cases hts : ts ∈ m.map Prod.fst
  · simpa [hts]
  · rw [if_neg hts, List.map_append]
    rw [List.nodup_append]
    exact ⟨h, List.nodup_singleton _, by
      intro a ha hb
      simp at hb
      subst hb
      exact hts ha⟩

theorem bafuStep_eq_some (m : List (Int × HydroFields)) (e : BafuEntry)
    (ts : Int) (par : String) (hts : e.timestamp = some ts)
    (hpar : e.par = some par) :
    bafuStep m e =
      if par = "flow" then setFlow (insertTs m ts) ts e.val
      else if par = "height" then setHeight (insertTs m ts) ts e.val
      else insertTs m ts := by
  unfold bafuStep
  rw [hts, hpar]

theorem bafuStep_eq_skip (m : List (Int × HydroFields)) (e : BafuEntry)
    (h : e.timestamp = Option.none ∨ e.par = Option.none) :
    bafuStep m e = m := by
  unfold bafuStep
  rcases h with h | h
  · rw [h]
  · rw [h]
    cases e.timestamp <;> rfl

/-- Keys after one merge step, for a usable entry: they are the keys of
`insertTs m ts` whatever the tag. -/
theorem map_fst_bafuStep_some (m : List (Int × HydroFields)) (e : BafuEntry)
    (ts : Int) (par : String) (hts : e.timestamp = some ts)
    (hpar : e.par = some par) :
    (bafuStep m e).map Prod.fst = (insertTs m ts).map Prod.fst := by
  rw [bafuStep_eq_some m e ts par hts hpar]
  by_cases hflow : par = "flow"
  · rw [if_pos hflow, map_fst_setFlow]
  · rw [if_neg hflow]
    by_cases hheight : par = "height"
    · rw [if_pos hheight, map_fst_setHeight]
    · rw [if_neg hheight]

/-- Keys of one merge step: old keys persist, the entry's own timestamp (when
usable) appears, and key uniqueness is preserved. -/
theorem bafuStep_keys (m : List (Int × HydroFields)) (e : BafuEntry) :
    (∀ k, k ∈ m.map Prod.fst → k ∈ (bafuStep m e).map Prod.fst) ∧
    (∀ ts p, e.timestamp = some ts → e.par = some p →
      ts ∈ (bafuStep m e).map Prod.fst) ∧
    ((m.map Prod.fst).Nodup → ((bafuStep m e).map Prod.fst).Nodup) := by
  cases hts : e.timestamp with
  | none =>
    rw [bafuStep_eq_skip m e (Or.inl hts)]
    exact ⟨fun k hk => hk, by simp [hts], fun h => h⟩
  | some ts =>
    cases hpar : e.par with
    | none =>
      rw [bafuStep_eq_skip m e (Or.inr hpar)]
      exact ⟨fun k hk => hk, by simp [hpar], fun h => h⟩
    | some par =>
      have hkeys := map_fst_bafuStep_some m e ts par hts hpar
      rw [hkeys]
      refine ⟨fun k hk => mem_map_fst_insertTs_of_mem m ts k hk,
        fun ts' p hts' hpar' => ?_,
        fun h => nodup_map_fst_insertTs m ts h⟩
      cases hts'
      exact mem_map_fst_insertTs m ts

/-- Keys of the whole merge fold. -/
theorem bafuFold_keys (payload : List BafuEntry) :
    ∀ m : List (Int × HydroFields),
      (∀ k, k ∈ m.map Prod.fst →
        k ∈ (payload.foldl bafuStep m).map Prod.fst) ∧
      (∀ e ∈ payload, ∀ ts p, e.timestamp = some ts → e.par = some p →
        ts ∈ (payload.foldl bafuStep m).map Prod.fst) ∧
      ((m.map Prod.fst).Nodup →
        ((payload.foldl bafuStep m).map Prod.fst).Nodup) := by
  induction payload with
  | nil => intro m; simp
  | cons e rest ih =>
    intro m
    obtain ⟨s1, s2, s3⟩ := bafuStep_keys m e
    obtain ⟨i1, i2, i3⟩ := ih (bafuStep m e)
    rw [List.foldl_cons]
    refine ⟨fun k hk => i1 k (s1 k hk), ?_, fun h => i3 (s3 h)⟩
    intro e' he' ts p hts hpar
    rcases List.mem_cons.1 he' with h | h
    · subst h
      exact i1 ts (s2 ts p hts hpar)
    · exact i2 e' h ts p hts hpar

/-- C8.  `parse` merges entries sharing an epoch timestamp into one record
per timestamp (the output times are unique and every usable entry's
timestamp is represented), returns the records sorted ascending by time for
every input order, maps an empty payload to `[]`, and on the spec's concrete
four-entry payload (two timestamps × flow/height) yields exactly the two
merged records, ascending, with discharge 245.3 and level 322.1 first. -/
theorem C8_bafu_parse_merge_sort (station_id : String)
    (payload : List BafuEntry) :
    (bafuParse station_id payload).Sorted hydroLe ∧
    ((bafuParse station_id payload).map HydroRec.time).Nodup ∧
    (payload = [] → bafuParse station_id payload = []) ∧
    (∀ e ∈ payload, ∀ ts p, e.timestamp = some ts → e.par = some p →
      ts ∈ (bafuParse station_id payload).map HydroRec.time) ∧
    bafuParse "2018"
      [⟨some 1772236800, some "flow", some (2453/10)⟩,
       ⟨some 1772236800, some "height", some (3221/10)⟩,
       ⟨some 1772240400, some "flow", some (2438/10)⟩,
       ⟨some 1772240400, some "height", some (3219/10)⟩] =
      [⟨1772236800, "2018", some (2453/10), some (3221/10)⟩,
       ⟨1772240400, "2018", some (2438/10), some (3219/10)⟩] := by
  have hconc : bafuParse "2018"
      [⟨some 1772236800, some "flow", some (2453/10)⟩,
       ⟨some 1772236800, some "height", some (3221/10)⟩,
       ⟨some 1772240400, some "flow", some (2438/10)⟩,
       ⟨some 1772240400, some "height", some (3219/10)⟩] =
      [⟨1772236800, "2018", some (2453/10), some (3221/10)⟩,
       ⟨1772240400, "2018", some (2438/10), some (3219/10)⟩] := by
    simp +decide [bafuParse, bafuStep, insertTs, setFlow, setHeight,
      List.insertionSort, List.orderedInsert, hydroLe]
  by_cases hpay : payload = []
  · subst hpay
    exact ⟨by simp [bafuParse], by simp [bafuParse], fun _ => rfl,
      by simp, hconc⟩
  · have hne : payload.isEmpty = false := by
      cases payload with
      | nil => exact absurd rfl hpay
      | cons a l => rfl
    have hparse : bafuParse station_id payload =
        List.insertionSort hydroLe ((payload.foldl bafuStep []).map fun p =>
          (⟨p.1, station_id, p.2.discharge_m3s, p.2.level_masl⟩ : HydroRec)) := by
      simp [bafuParse, hne]
    obtain ⟨k1, k2, k3⟩ := bafuFold_keys payload []
    have hperm : (List.insertionSort hydroLe
        ((payload.foldl bafuStep []).map fun p =>
          (⟨p.1, station_id, p.2.discharge_m3s, p.2.level_masl⟩ : HydroRec))).Perm
        ((payload.foldl bafuStep []).map fun p =>
          (⟨p.1, station_id, p.2.discharge_m3s, p.2.level_masl⟩ : HydroRec)) :=
      List.perm_insertionSort hydroLe _
    have htimes : ∀ l : List (Int × HydroFields),
        (l.map fun p =>
          (⟨p.1, station_id, p.2.discharge_m3s, p.2.level_masl⟩ : HydroRec)).map
            HydroRec.time = l.map Prod.fst := by
      intro l
      rw [List.map_map]
      rfl
    refine ⟨?_, ?_, fun h => absurd h hpay, ?_, hconc⟩
    · rw [hparse]
      exact List.sorted_insertionSort hydroLe _
    · rw [hparse]
      refine ((hperm.map HydroRec.time).nodup_iff).2 ?_
      rw [htimes]
      exact k3 (by simp)
    · intro e he ts p hts hpar
      rw [hparse]
      have : ts ∈ ((payload.foldl bafuStep []).map fun p =>
          (⟨p.1, station_id, p.2.discharge_m3s, p.2.level_masl⟩ : HydroRec)).map
            HydroRec.time := by
        rw [htimes]
        exact k2 e he ts p hts hpar
      exact ((hperm.map HydroRec.time).mem_iff).2 this

/-- Witness for C8 at the spec's concrete four-entry payload. -/
theorem C8_bafu_parse_merge_sort_witness :
    (let payload : List BafuEntry :=
      [⟨some 1772236800, some "flow", some (2453/10)⟩,
       ⟨some 1772236800, some "height", some (3221/10)⟩,
       ⟨some 1772240400, some "flow", some (2438/10)⟩,
       ⟨some 1772240400, some "height", some (3219/10)⟩]
     (bafuParse "2018" payload).Sorted hydroLe ∧
     ((bafuParse "2018" payload).map HydroRec.time).Nodup ∧
     (payload = [] → bafuParse "2018" payload = []) ∧
     (∀ e ∈ payload, ∀ ts p, e.timestamp = some ts → e.par = some p →
       ts ∈ (bafuParse "2018" payload).map HydroRec.time) ∧
     bafuParse "2018"
       [⟨some 1772236800, some "flow", some (2453/10)⟩,
        ⟨some 1772236800, some "height", some (3221/10)⟩,
        ⟨some 1772240400, some "flow", some (2438/10)⟩,
        ⟨some 1772240400, some "height", some (3219/10)⟩] =
       [⟨1772236800, "2018", some (2453/10), some (3221/10)⟩,
        ⟨1772240400, "2018", some (2438/10), some (3219/10)⟩]) :=
  C8_bafu_parse_merge_sort "2018"
    [⟨some 1772236800, some "flow", some (2453/10)⟩,
     ⟨some 1772236800, some "height", some (3221/10)⟩,
     ⟨some 1772240400, some "flow", some (2438/10)⟩,
     ⟨some 1772240400, some "height", some (3219/10)⟩]

/-! ## open-meteo weather collector (`openmeteo_collector.py`)

`parse` (lines 49–78) walks the `hourly.time` array with `enumerate` and
reads the four value arrays index-aligned through `_safe_float` (lines
81–86), which returns `None` on index-out-of-range, a `None` value, or a
type/value conversion failure.  A JSON array cell is modelled as: a number,
`null`, a string together with its float-conversion result (`none` when
`float(...)` would raise `ValueError`), or a non-convertible value
(`TypeError`).  Times are epoch minutes after `fromisoformat` + UTC. -/

inductive OMVal where
  | omnull
  | num (q : ℚ)
  | str (conv : Option ℚ)
  | other
deriving DecidableEq, Repr

structure WeatherRec where
  time : Int
  latitude : ℚ
  longitude : ℚ
  temperature_2m : Option ℚ
  wind_speed_10m : Option ℚ
  shortwave_radiation : Option ℚ
  cloud_cover : Option ℚ
deriving DecidableEq, Repr

structure OMHourly where
  time : List Int
  temperature_2m : List OMVal
  wind_speed_10m : List OMVal
  shortwave_radiation : List OMVal
  cloud_cover : List OMVal
deriving DecidableEq, Repr

/-- Embeds `_safe_float(lst, idx)`. -/
def safe_float (lst : List OMVal) (idx : ℕ) : Option ℚ :=
  match lst[idx]? with
  | Option.none => Option.none
  | some OMVal.omnull => Option.none
  | some (OMVal.num q) => some q
  | some (OMVal.str conv) => conv
  | some OMVal.other => Option.none

/-- Embeds `OpenMeteoCollector.parse`: one record per entry of the time
array, value fields read index-aligned via `_safe_float`. -/
def openMeteoParse (latitude longitude : ℚ) (h : OMHourly) : List WeatherRec :=
  h.time.enum.map fun p =>
    ⟨p.2, latitude, longitude,
      safe_float h.temperature_2m p.1,
      safe_float h.wind_speed_10m p.1,
      safe_float h.shortwave_radiation p.1,
      safe_float h.cloud_cover p.1⟩

/-- C9.  `parse` emits one record per time-array index with every value
field read index-aligned through `_safe_float`; a missing index, a null, a
non-convertible string or a non-numeric value yields `none` for exactly that
field (never an exception — the output always has one record per time
entry); and replacing any one variable array wholesale changes only that
field of the records, leaving the other fields untouched. -/
theorem C9_openmeteo_safe_float_isolation (lat lon : ℚ) (h : OMHourly) :
    (openMeteoParse lat lon h).length = h.time.length ∧
    (∀ (i : ℕ) (t : Int), h.time[i]? = some t →
      (openMeteoParse lat lon h)[i]? = some
        (⟨t, lat, lon, safe_float h.temperature_2m i,
          safe_float h.wind_speed_10m i, safe_float h.shortwave_radiation i,
          safe_float h.cloud_cover i⟩ : WeatherRec)) ∧
    (∀ lst i, lst[i]? = Option.none → safe_float lst i = Option.none) ∧
    (∀ lst i, lst[i]? = some OMVal.omnull → safe_float lst i = Option.none) ∧
    (∀ lst i, lst[i]? = some OMVal.other → safe_float lst i = Option.none) ∧
    (∀ lst i s, lst[i]? = some (OMVal.str s) → safe_float lst i = s) ∧
    (∀ lst i q, lst[i]? = some (OMVal.num q) → safe_float lst i = some q) ∧
    (∀ v, (openMeteoParse lat lon
        ⟨h.time, v, h.wind_speed_10m, h.shortwave_radiation, h.cloud_cover⟩).map
          (fun rec => (rec.time, rec.wind_speed_10m, rec.shortwave_radiation,
            rec.cloud_cover)) =
      (openMeteoParse lat lon h).map
        (fun rec => (rec.time, rec.wind_speed_10m, rec.shortwave_radiation,
          rec.cloud_cover))) ∧
    (∀ v, (openMeteoParse lat lon
        ⟨h.time, h.temperature_2m, v, h.shortwave_radiation, h.cloud_cover⟩).map
          (fun rec => (rec.time, rec.temperature_2m, rec.shortwave_radiation,
            rec.cloud_cover)) =
      (openMeteoParse lat lon h).map
        (fun rec => (rec.time, rec.temperature_2m, rec.shortwave_radiation,
          rec.cloud_cover))) ∧
    (∀ v, (openMeteoParse lat lon
        ⟨h.time, h.temperature_2m, h.wind_speed_10m, v, h.cloud_cover⟩).map
          (fun rec => (rec.time, rec.temperature_2m, rec.wind_speed_10m,
            rec.cloud_cover)) =
      (openMeteoParse lat lon h).map
        (fun rec => (rec.time, rec.temperature_2m, rec.wind_speed_10m,
          rec.cloud_cover))) ∧
    (∀ v, (openMeteoParse lat lon
        ⟨h.time, h.temperature_2m, h.wind_speed_10m, h.shortwave_radiation, v⟩).map
          (fun rec => (rec.time, rec.temperature_2m, rec.wind_speed_10m,
            rec.shortwave_radiation)) =
      (openMeteoParse lat lon h).map
        (fun rec => (rec.time, rec.temperature_2m, rec.wind_speed_10m,
          rec.shortwave_radiation))) := by
  refine ⟨?_, ?_, ?_, ?_, ?_, ?_, ?_, ?_, ?_, ?_, ?_⟩
  · rw [openMeteoParse, List.length_map, List.enum_length]
  · intro i t hti
    rw [openMeteoParse, List.getElem?_map, List.getElem?_enum, hti]
    rfl
  · intro lst i hl
    rw [safe_float, hl]
  · intro lst i hl
    rw [safe_float, hl]
  · intro lst i hl
    rw [safe_float, hl]
  · intro lst i s hl
    rw [safe_float, hl]
  · intro lst i q hl
    rw [safe_float, hl]
  · intro v
    rw [openMeteoParse, openMeteoParse, List.map_map, List.map_map]
    rfl
  · intro v
    rw [openMeteoParse, openMeteoParse, List.map_map, List.map_map]
    rfl
  · intro v
    rw [openMeteoParse, openMeteoParse, List.map_map, List.map_map]
    rfl
  · intro v
    rw [openMeteoParse, openMeteoParse, List.map_map, List.map_map]
    rfl

/-- Witness for C9 on the conftest-style hourly payload (two timestamps,
second cloud value missing). -/
theorem C9_openmeteo_safe_float_isolation_witness :
    (let h : OMHourly := ⟨[29537280, 29537340],
      [OMVal.num (35/10), OMVal.num (41/10)],
      [OMVal.num (123/10), OMVal.num 14],
      [OMVal.num 0, OMVal.num 0],
      [OMVal.num 80]⟩
     (openMeteoParse (475001/10000) (87502/10000) h).length =
       h.time.length ∧
     (∀ (i : ℕ) (t : Int), h.time[i]? = some t →
       (openMeteoParse (475001/10000) (87502/10000) h)[i]? = some
         (⟨t, 475001/10000, 87502/10000, safe_float h.temperature_2m i,
           safe_float h.wind_speed_10m i, safe_float h.shortwave_radiation i,
           safe_float h.cloud_cover i⟩ : WeatherRec)) ∧
     (∀ lst i, lst[i]? = Option.none → safe_float lst i = Option.none) ∧
     (∀ lst i, lst[i]? = some OMVal.omnull → safe_float lst i = Option.none) ∧
     (∀ lst i, lst[i]? = some OMVal.other → safe_float lst i = Option.none) ∧
     (∀ lst i s, lst[i]? = some (OMVal.str s) → safe_float lst i = s) ∧
     (∀ lst i q, lst[i]? = some (OMVal.num q) → safe_float lst i = some q) ∧
     (∀ v, (openMeteoParse (475001/10000) (87502/10000)
         ⟨h.time, v, h.wind_speed_10m, h.shortwave_radiation, h.cloud_cover⟩).map
           (fun rec => (rec.time, rec.wind_speed_10m, rec.shortwave_radiation,
             rec.cloud_cover)) =
       (openMeteoParse (475001/10000) (87502/10000) h).map
         (fun rec => (rec.time, rec.wind_speed_10m, rec.shortwave_radiation,
           rec.cloud_cover))) ∧
     (∀ v, (openMeteoParse (475001/10000) (87502/10000)
         ⟨h.time, h.temperature_2m, v, h.shortwave_radiation, h.cloud_cover⟩).map
           (fun rec => (rec.time, rec.temperature_2m, rec.shortwave_radiation,
             rec.cloud_cover)) =
       (openMeteoParse (475001/10000) (87502/10000) h).map
         (fun rec => (rec.time, rec.temperature_2m, rec.shortwave_radiation,
           rec.cloud_cover))) ∧
     (∀ v, (openMeteoParse (475001/10000) (87502/10000)
         ⟨h.time, h.temperature_2m, h.wind_speed_10m, v, h.cloud_cover⟩).map
           (fun rec => (rec.time, rec.temperature_2m, rec.wind_speed_10m,
             rec.cloud_cover)) =
       (openMeteoParse (475001/10000) (87502/10000) h).map
         (fun rec => (rec.time, rec.temperature_2m, rec.wind_speed_10m,
           rec.cloud_cover))) ∧
     (∀ v, (openMeteoParse (475001/10000) (87502/10000)
         ⟨h.time, h.temperature_2m, h.wind_speed_10m, h.shortwave_radiation,
           v⟩).map
           (fun rec => (rec.time, rec.temperature_2m, rec.wind_speed_10m,
             rec.shortwave_radiation)) =
       (openMeteoParse (475001/10000) (87502/10000) h).map
         (fun rec => (rec.time, rec.temperature_2m, rec.wind_speed_10m,
           rec.shortwave_radiation)))) :=
  C9_openmeteo_safe_float_isolation (475001/10000) (87502/10000)
    ⟨[29537280, 29537340],
      [OMVal.num (35/10), OMVal.num (41/10)],
      [OMVal.num (123/10), OMVal.num 14],
      [OMVal.num 0, OMVal.num 0],
      [OMVal.num 80]⟩

end BDSP
